import Mathlib

/-!
Verification of the cross-process asynchronous call bridge and
command-dispatch router of the `arc-electron` renderer shell.

The development shallowly embeds the two source files:

* `src/scripts/main/arc-base.js` — the `ArcBase` class: the Debounce
  Registry (`debounce`, `cancelDebounce`, `_debounceIndex`) and the Call
  Correlator (`nextIpcRequestId`, `appendPromise`, `_ipcPromiseCallback`).
* `src/app.js` — the `ArcInit` class: the Command Router
  (`commandHandler`, `execRequestAction`) and the Lifecycle Sequencer
  (`_stateInfoHandler`, `initApp`, `reportFatalError`, `upgradeApp`,
  `processInitialPath`, `handleDefaultProtocolActon`,
  `handleGoogleDriveAction`).

JavaScript arrays become `List`, `findIndex` becomes an `Option Nat`
valued search (JS `-1` ↔ `none`), thrown exceptions become explicit
`Option`/`Except` error components, and the invocation of a stored
continuation (`resolve`/`reject`, a debounced callback, a bound command
handler) is recorded in an explicit log so that theorems can speak about
which continuations ran, with which payloads, how many times.
-/

/-- JS `Array.prototype.findIndex`: index of the first element satisfying
`p`, with `none` standing for the JS return value `-1`. -/
def findIdxOpt {α : Type} (p : α → Bool) : List α → Option Nat
  | [] => none
  | a :: l => if p a then some 0 else (findIdxOpt p l).map (· + 1)

theorem findIdxOpt_nil {α : Type} (p : α → Bool) : findIdxOpt p [] = none := rfl

theorem findIdxOpt_eq_none_iff {α : Type} (p : α → Bool) (l : List α) :
    findIdxOpt p l = none ↔ ∀ x ∈ l, p x = false := by
  induction l with
  | nil => simp [findIdxOpt]
  | cons a l ih =>
    by_cases h : p a
    · simp [findIdxOpt, h]
    · simp [findIdxOpt, h, ih, Bool.not_eq_true] at *

theorem findIdxOpt_append_of_none {α : Type} (p : α → Bool) (l₁ l₂ : List α)
    (h : ∀ x ∈ l₁, p x = false) :
    findIdxOpt p (l₁ ++ l₂) = (findIdxOpt p l₂).map (· + l₁.length) := by
  induction l₁ with
  | nil => simp
  | cons a l ih =>
    have ha : p a = false := h a (List.mem_cons_self a l)
    have hrest : ∀ x ∈ l, p x = false := fun x hx => h x (List.mem_cons_of_mem a hx)
    show (if p a then some 0 else (findIdxOpt p (l ++ l₂)).map (· + 1)) =
      (findIdxOpt p l₂).map (· + (a :: l).length)
    rw [ha, if_neg (by simp), ih hrest]
    cases findIdxOpt p l₂ with
    | none => simp
    | some i =>
      simp [Nat.add_assoc]

/-- Eliminating the first occurrence of a found element: splicing out the
index returned by `findIndex` is the same as `List.erase`. -/
theorem eraseIdx_findIdxOpt_eq_erase (l : List Nat) (id : Nat) (h : id ∈ l) :
    ∃ i, findIdxOpt (fun x => x == id) l = some i ∧ l.eraseIdx i = l.erase id := by
  induction l with
  | nil => cases h
  | cons a l ih =>
    by_cases ha : a = id
    · subst ha
      refine ⟨0, ?_, ?_⟩
      · simp [findIdxOpt]
      · simp [List.eraseIdx]
    · have hmem : id ∈ l := by
        cases List.mem_cons.mp h with
        | inl h0 => exact absurd h0.symm ha
        | inr h0 => exact h0
      obtain ⟨i, hfind, herase⟩ := ih hmem
      refine ⟨i + 1, ?_, ?_⟩
      · have : (a == id) = false := by simp [ha]
        simp [findIdxOpt, this, hfind]
      · have : ¬(a == id) := by simp [ha]
        simp [List.eraseIdx, List.erase_cons_tail this, herase]

/-! ## The Call Correlator (`ArcBase` in `arc-base.js`) -/

/-- The payload with which a pending promise is settled:
`args.length === 1` settles with the single value, any other arity
settles with the whole argument array. -/
inductive Payload (α : Type) where
  | single (value : α)
  | listed (values : List α)
  deriving DecidableEq, Repr

/-- The branch structure of `_ipcPromiseCallback`:
`args.length === 1 ? resolve(...args) : resolve(args)`. -/
def payloadOfArgs {α : Type} (args : List α) : Payload α :=
  match args with
  | [a] => Payload.single a
  | _ => Payload.listed args

/-- A recorded settlement of one pending promise: which `id`, whether the
`reject` (`isError = true`) or the `resolve` continuation ran, and with
which payload. -/
structure Settlement (α : Type) where
  id : Nat
  isError : Bool
  payload : Payload α
  deriving DecidableEq, Repr

/-- The mutable correlator state of an `ArcBase` instance: the
`_promises` array (only the `id` of each `{id, resolve, reject}` record
matters — settling is recorded in the `settled` log rather than by
invoking an opaque continuation). -/
structure CorrState (α : Type) where
  promises : List Nat
  settled : List (Settlement α)
  deriving DecidableEq, Repr

/-- Fresh `ArcBase` instance: `this._promises = []`. -/
def CorrState.empty (α : Type) : CorrState α := ⟨[], []⟩

/-- The `Error('Promise not found')` thrown by `_ipcPromiseCallback`
when no pending promise matches the response id. -/
inductive CorrelationError where
  | promiseNotFound
  deriving DecidableEq, Repr

/-- `appendPromise(id)`: pushes a `{id, resolve, reject}` record onto
`this._promises` and hands out the promise. -/
def appendPromise {α : Type} (s : CorrState α) (id : Nat) : CorrState α :=
  { s with promises := s.promises ++ [id] }

/-- `_ipcPromiseCallback(e, id, isError, ...args)`: looks up the pending
promise by `id` (`findIndex`); if absent, throws (`some` error, state
untouched); if present, splices it out and settles it with
`payloadOfArgs args`, rejecting when `isError` and resolving otherwise. -/
def ipcPromiseCallback {α : Type} (s : CorrState α) (id : Nat) (isError : Bool)
    (args : List α) : CorrState α × Option CorrelationError :=
  match findIdxOpt (fun pid => pid == id) s.promises with
  | none => (s, some CorrelationError.promiseNotFound)
  | some i =>
    ({ promises := s.promises.eraseIdx i,
       settled := s.settled ++ [⟨id, isError, payloadOfArgs args⟩] }, none)

/-- `nextIpcRequestId()`: `return ++this._ipcRequestId`, modelled over
the explicit counter field (initially `0`): returns the bumped counter
together with the bumped field. -/
def nextIpcRequestId (counter : Nat) : Nat × Nat := (counter + 1, counter + 1)

/-- The ids returned by `n` consecutive `nextIpcRequestId()` calls
starting from counter value `c`. -/
def runNextIds : Nat → Nat → List Nat
  | _, 0 => []
  | c, Nat.succ n => (nextIpcRequestId c).2 :: runNextIds (nextIpcRequestId c).1 n

theorem runNextIds_eq_range' (n : Nat) : ∀ c, runNextIds c n = List.range' (c + 1) n := by
  induction n with
  | zero => intro c; rfl
  | succ n ih =>
    intro c
    simp [runNextIds, nextIpcRequestId, List.range', ih]

theorem le_of_mem_range' : ∀ (n s m : Nat), m ∈ List.range' s n → s ≤ m := by
  intro n
  induction n with
  | zero => intro s m h; simp [List.range'] at h
  | succ n ih =>
    intro s m h
    simp only [List.range', List.mem_cons] at h
    cases h with
    | inl h => omega
    | inr h => have := ih (s + 1) m h; omega

theorem range'_pairwise_lt : ∀ (n s : Nat), (List.range' s n).Pairwise (· < ·) := by
  intro n
  induction n with
  | zero => intro s; simp [List.range']
  | succ n ih =>
    intro s
    refine List.Pairwise.cons ?_ (ih (s + 1))
    intro m hm
    have := le_of_mem_range' n (s + 1) m hm
    omega

/-- C9 — For every sequence of `n` calls to `nextIpcRequestId` within one
process lifetime (counter starting at its constructor value `0`), the
returned values are `1, 2, …, n`: each returned id starts at 1 and is
strictly greater than every previously returned value, so no id is ever
reused. -/
theorem nextIpcRequestId_fresh_monotone (n : Nat) :
    runNextIds 0 n = List.range' 1 n ∧ (runNextIds 0 n).Pairwise (· < ·) := by
  refine ⟨runNextIds_eq_range' n 0, ?_⟩
  rw [runNextIds_eq_range' n 0]
  exact range'_pairwise_lt n 1

/-- Successful completion: when `id` is pending, `_ipcPromiseCallback`
splices out the first matching record and settles it with
`payloadOfArgs args`; nothing is thrown. -/
theorem ipcPromiseCallback_found {α : Type} (s : CorrState α) (id : Nat)
    (isError : Bool) (args : List α) (h : id ∈ s.promises) :
    ipcPromiseCallback s id isError args =
      ({ promises := s.promises.erase id,
         settled := s.settled ++ [⟨id, isError, payloadOfArgs args⟩] }, none) := by
  obtain ⟨i, hfind, herase⟩ := eraseIdx_findIdxOpt_eq_erase s.promises id h
  simp [ipcPromiseCallback, hfind, herase]

/-- C2 — `complete` (`_ipcPromiseCallback`) with an id that has no
matching pending call raises an error (the thrown
`Error('Promise not found')`, the spec's CorrelationError) and leaves the
pending-call set — indeed the whole correlator state — unchanged; it is
never silently ignored. -/
theorem complete_unregistered_raises_and_preserves_state {α : Type}
    (s : CorrState α) (id : Nat) (isError : Bool) (args : List α)
    (h : id ∉ s.promises) :
    ipcPromiseCallback s id isError args = (s, some CorrelationError.promiseNotFound) := by
  have hnone : findIdxOpt (fun pid => pid == id) s.promises = none := by
    rw [findIdxOpt_eq_none_iff]
    intro x hx
    simp only [beq_eq_false_iff_ne, ne_eq]
    intro hxid
    exact h (hxid ▸ hx)
  simp [ipcPromiseCallback, hnone]

theorem complete_unregistered_witness :
    ipcPromiseCallback (⟨[1, 3], []⟩ : CorrState Nat) 2 false [7] =
      (⟨[1, 3], []⟩, some CorrelationError.promiseNotFound) :=
  complete_unregistered_raises_and_preserves_state ⟨[1, 3], []⟩ 2 false [7] (by decide)

/-- C10 — `complete` for a pending id with zero trailing arguments takes
the `args.length === 1 ? ... : ...` else-branch: the handle settles with
the empty argument list (`resolve([])` when `isError` is false,
`reject([])` when it is true), not with a single missing value. -/
theorem complete_zero_args_settles_with_empty_list {α : Type}
    (s : CorrState α) (id : Nat) (isError : Bool) (h : id ∈ s.promises) :
    ipcPromiseCallback s id isError ([] : List α) =
      ({ promises := s.promises.erase id,
         settled := s.settled ++ [⟨id, isError, Payload.listed []⟩] }, none) :=
  ipcPromiseCallback_found s id isError [] h

theorem complete_zero_args_witness :
    ipcPromiseCallback (⟨[5], []⟩ : CorrState Nat) 5 true [] =
      (⟨[], [⟨5, true, Payload.listed []⟩]⟩, none) :=
  complete_zero_args_settles_with_empty_list ⟨[5], []⟩ 5 true (by decide)

/-! ## Issue/complete traces over the correlator -/

/-- One operation against the Call Correlator: `issue id` is
`appendPromise(id)` (after `nextIpcRequestId()`), `complete id isError
args` is a boundary response delivered to `_ipcPromiseCallback`. -/
inductive Op (α : Type) where
  | issue (id : Nat)
  | complete (id : Nat) (isError : Bool) (args : List α)
  deriving DecidableEq, Repr

/-- Runs a sequence of operations against a correlator state. A failed
`complete` throws out of `_ipcPromiseCallback` without touching the
state; the JS object survives its handler throwing, so the run continues
on the unchanged state. -/
def runOps {α : Type} (s : CorrState α) : List (Op α) → CorrState α
  | [] => s
  | Op.issue id :: rest => runOps (appendPromise s id) rest
  | Op.complete id isError args :: rest =>
    runOps (ipcPromiseCallback s id isError args).1 rest

/-- The settlement an operation produces when it is a `complete`. -/
def settlementOfOp {α : Type} : Op α → Option (Settlement α)
  | Op.issue _ => none
  | Op.complete id isError args => some ⟨id, isError, payloadOfArgs args⟩

/-- The ids carried by the `complete` operations of a trace, in order. -/
def completeIds {α : Type} (t : List (Op α)) : List Nat :=
  t.filterMap fun op =>
    match op with
    | Op.complete id _ _ => some id
    | Op.issue _ => none

/-- Protocol-respecting traces, tracked against the pending-id multiset
`pending` and the set `issued` of all ids ever issued: an `issue` uses a
fresh id (as produced by the monotone `nextIpcRequestId`), a `complete`
targets an id that was previously issued and not yet completed. -/
def wfFrom {α : Type} : List Nat → List Nat → List (Op α) → Bool
  | _, _, [] => true
  | pending, issued, Op.issue id :: rest =>
    decide (id ∉ issued) && wfFrom (pending ++ [id]) (id :: issued) rest
  | pending, issued, Op.complete id _ _ :: rest =>
    decide (id ∈ pending) && wfFrom (pending.erase id) issued rest

/-- A whole-lifetime trace starting from a fresh correlator. -/
def WfTrace {α : Type} (t : List (Op α)) : Bool := wfFrom [] [] t

theorem wfFrom_nil {α : Type} (pending issued : List Nat) :
    wfFrom (α := α) pending issued [] = true := rfl

theorem wfFrom_issue {α : Type} (pending issued : List Nat) (id : Nat)
    (rest : List (Op α)) :
    wfFrom pending issued (Op.issue id :: rest) = true ↔
      id ∉ issued ∧ wfFrom (pending ++ [id]) (id :: issued) rest = true := by
  simp [wfFrom]

theorem wfFrom_complete {α : Type} (pending issued : List Nat) (id : Nat)
    (isError : Bool) (args : List α) (rest : List (Op α)) :
    wfFrom pending issued (Op.complete id isError args :: rest) = true ↔
      id ∈ pending ∧ wfFrom (pending.erase id) issued rest = true := by
  simp [wfFrom]

/-- Along a well-formed trace, the settled log grows by exactly the
settlements of the trace's `complete` operations, in trace order. -/
theorem runOps_settled {α : Type} (t : List (Op α)) :
    ∀ (pending issued : List Nat) (s : CorrState α),
      wfFrom pending issued t = true → s.promises = pending →
      (runOps s t).settled = s.settled ++ t.filterMap settlementOfOp := by
  induction t with
  | nil => intro pending issued s _ _; simp [runOps]
  | cons op rest ih =>
    intro pending issued s hwf hp
    cases op with
    | issue id =>
      rw [wfFrom_issue] at hwf
      have := ih (pending ++ [id]) (id :: issued) (appendPromise s id) hwf.2
        (by simp [appendPromise, hp])
      simpa [runOps, appendPromise, settlementOfOp] using this
    | complete id isError args =>
      rw [wfFrom_complete] at hwf
      have hmem : id ∈ s.promises := hp ▸ hwf.1
      rw [runOps, ipcPromiseCallback_found s id isError args hmem]
      have := ih (pending.erase id) issued
        ⟨s.promises.erase id, s.settled ++ [⟨id, isError, payloadOfArgs args⟩]⟩
        hwf.2 (by simp [hp])
      simpa [settlementOfOp, List.filterMap_cons] using this

/-- An id that is no longer pending and was already issued can never be
the target of a later well-formed `complete`. -/
theorem wf_id_not_completed {α : Type} (t : List (Op α)) :
    ∀ (pending issued : List Nat), wfFrom pending issued t = true →
      ∀ id, id ∉ pending → id ∈ issued → id ∉ completeIds t := by
  induction t with
  | nil => intro pending issued _ id _ _; simp [completeIds]
  | cons op rest ih =>
    intro pending issued hwf id hnp hiss
    cases op with
    | issue id' =>
      rw [wfFrom_issue] at hwf
      have hne : id ≠ id' := fun h => hwf.1 (h ▸ hiss)
      have : id ∉ pending ++ [id'] := by
        simp [List.mem_append]
        exact ⟨hnp, hne⟩
      have := ih (pending ++ [id']) (id' :: issued) hwf.2 id this
        (List.mem_cons_of_mem id' hiss)
      simpa [completeIds, List.filterMap_cons] using this
    | complete id' isError args =>
      rw [wfFrom_complete] at hwf
      have hne : id ≠ id' := fun h => hnp (h ▸ hwf.1)
      have hrest : id ∉ completeIds rest :=
        ih (pending.erase id') issued hwf.2 id
          (fun h => hnp (List.erase_subset _ _ h)) hiss
      have heq : completeIds (Op.complete id' isError args :: rest) =
          id' :: completeIds rest := by
        simp [completeIds, List.filterMap_cons]
      rw [heq]
      intro hmem
      rcases List.mem_cons.mp hmem with h | h
      · exact hne h
      · exact hrest h

/-- Along a well-formed trace no id is completed twice. -/
theorem wf_completeIds_nodup {α : Type} (t : List (Op α)) :
    ∀ (pending issued : List Nat), wfFrom pending issued t = true →
      pending.Nodup → (∀ x ∈ pending, x ∈ issued) → (completeIds t).Nodup := by
  induction t with
  | nil => intro pending issued _ _ _; simp [completeIds]
  | cons op rest ih =>
    intro pending issued hwf hnd hsub
    cases op with
    | issue id =>
      rw [wfFrom_issue] at hwf
      have hid : id ∉ pending := fun h => hwf.1 (hsub id h)
      have hnd' : (pending ++ [id]).Nodup := by
        rw [List.nodup_append]
        exact ⟨hnd, List.nodup_singleton id, by simpa using hid⟩
      have hsub' : ∀ x ∈ pending ++ [id], x ∈ id :: issued := by
        intro x hx
        rcases List.mem_append.mp hx with hx | hx
        · exact List.mem_cons_of_mem id (hsub x hx)
        · simp at hx; simp [hx]
      have := ih (pending ++ [id]) (id :: issued) hwf.2 hnd' hsub'
      simpa [completeIds, List.filterMap_cons] using this
    | complete id isError args =>
      rw [wfFrom_complete] at hwf
      have hnotin : id ∉ completeIds rest := by
        refine wf_id_not_completed rest (pending.erase id) issued hwf.2 id ?_ ?_
        · exact hnd.not_mem_erase
        · exact hsub id hwf.1
      have hrest : (completeIds rest).Nodup :=
        ih (pending.erase id) issued hwf.2 (hnd.erase id)
          (fun x hx => hsub x (List.erase_subset _ _ hx))
      have heq : completeIds (Op.complete id isError args :: rest) =
          id :: completeIds rest := by
        simp [completeIds, List.filterMap_cons]
      rw [heq, List.nodup_cons]
      exact ⟨hnotin, hrest⟩

theorem settled_ids_eq_completeIds {α : Type} (t : List (Op α)) :
    (t.filterMap settlementOfOp).map Settlement.id = completeIds t := by
  induction t with
  | nil => simp [completeIds]
  | cons op rest ih =>
    cases op with
    | issue id => simpa [completeIds, settlementOfOp, List.filterMap_cons] using ih
    | complete id isError args =>
      have h1 : List.filterMap settlementOfOp (Op.complete id isError args :: rest) =
          (⟨id, isError, payloadOfArgs args⟩ : Settlement α) ::
            List.filterMap settlementOfOp rest := by
        simp [List.filterMap_cons, settlementOfOp]
      have h2 : completeIds (Op.complete id isError args :: rest) =
          id :: completeIds rest := by
        simp [completeIds, List.filterMap_cons]
      rw [h1, h2, List.map_cons, ih]

theorem filter_settlements_eq_nil {α : Type} (l : List (Settlement α)) (id : Nat)
    (h : id ∉ l.map Settlement.id) :
    l.filter (fun st => st.id == id) = [] := by
  induction l with
  | nil => rfl
  | cons y ys ih =>
    simp only [List.map_cons, List.mem_cons, not_or] at h
    have hfalse : (y.id == id) = false := by
      simp only [beq_eq_false_iff_ne, ne_eq]
      intro hy
      exact h.1 hy.symm
    simp [List.filter_cons, hfalse, ih h.2]

theorem filter_settlements_singleton {α : Type} (l : List (Settlement α))
    (st : Settlement α) (hnd : (l.map Settlement.id).Nodup) (hmem : st ∈ l) :
    l.filter (fun x => x.id == st.id) = [st] := by
  induction l with
  | nil => cases hmem
  | cons y ys ih =>
    simp only [List.map_cons, List.nodup_cons] at hnd
    rcases List.mem_cons.mp hmem with rfl | hmem'
    · simp [List.filter_cons, filter_settlements_eq_nil ys st.id hnd.1]
    · have hin : st.id ∈ ys.map Settlement.id := List.mem_map_of_mem Settlement.id hmem'
      have hfalse : (y.id == st.id) = false := by
        simp only [beq_eq_false_iff_ne, ne_eq]
        intro hy
        exact hnd.1 (hy ▸ hin)
      simp [List.filter_cons, hfalse, ih hnd.2 hmem']

/-- C1 — Over any well-formed sequence of issue/complete operations
(each issued id fresh, each completed id previously issued and not yet
completed), the settled log is exactly the `complete` operations' own
settlements: each completed id's handle settles exactly once, with the
payload of the complete call carrying that id — one trailing argument
settles with that single value, any other arity with the full ordered
argument list — and an id never completed never settles. The order of
`complete` calls relative to `issue` calls is arbitrary. -/
theorem correlator_settles_each_id_exactly_once {α : Type} (t : List (Op α))
    (hwf : WfTrace t = true) :
    (runOps (CorrState.empty α) t).settled = t.filterMap settlementOfOp ∧
    (∀ id isError args, Op.complete id isError args ∈ t →
      (runOps (CorrState.empty α) t).settled.filter (fun st => st.id == id) =
        [⟨id, isError, payloadOfArgs args⟩]) ∧
    (∀ id, id ∉ completeIds t →
      (runOps (CorrState.empty α) t).settled.filter (fun st => st.id == id) = []) := by
  have hsettled : (runOps (CorrState.empty α) t).settled = t.filterMap settlementOfOp := by
    have h0 := runOps_settled t [] [] (CorrState.empty α) hwf rfl
    rw [h0]
    rfl
  have hnd : (completeIds t).Nodup :=
    wf_completeIds_nodup t [] [] hwf List.nodup_nil (by simp)
  refine ⟨hsettled, ?_, ?_⟩
  · intro id isError args hmem
    have hst : (⟨id, isError, payloadOfArgs args⟩ : Settlement α) ∈
        t.filterMap settlementOfOp := by
      rw [List.mem_filterMap]
      exact ⟨Op.complete id isError args, hmem, rfl⟩
    have := filter_settlements_singleton (t.filterMap settlementOfOp)
      ⟨id, isError, payloadOfArgs args⟩
      (by rw [settled_ids_eq_completeIds]; exact hnd) hst
    rw [hsettled]
    exact this
  · intro id hid
    rw [hsettled]
    exact filter_settlements_eq_nil _ id
      (by rw [settled_ids_eq_completeIds]; exact hid)

/-- The spec's out-of-order scenario: issue ids 1, 2, 3; complete them in
the order 3, 1, 2; each handle settles once with the correct payload
(single argument → that value, several → the list, none → the empty
list). -/
theorem correlator_out_of_order_witness :
    WfTrace ([Op.issue 1, Op.issue 2, Op.issue 3,
      Op.complete 3 false [30], Op.complete 1 false [10, 11],
      Op.complete 2 true []] : List (Op Nat)) = true ∧
    (runOps (CorrState.empty Nat) [Op.issue 1, Op.issue 2, Op.issue 3,
      Op.complete 3 false [30], Op.complete 1 false [10, 11],
      Op.complete 2 true []]).settled.filter (fun st => st.id == 3) =
      [⟨3, false, Payload.single 30⟩] := by
  refine ⟨by decide, ?_⟩
  have h := correlator_settles_each_id_exactly_once
    ([Op.issue 1, Op.issue 2, Op.issue 3, Op.complete 3 false [30],
      Op.complete 1 false [10, 11], Op.complete 2 true []] : List (Op Nat))
    (by decide)
  exact h.2.1 3 false [30] (by decide)

/-! ## The Debounce Registry (`ArcBase.debounce` / `cancelDebounce`) -/

/-- One entry of `this._debouncers`: the JS record stores `{name, id:
cancelId}`; the scheduled callback and its absolute fire time live in the
`setTimeout` closure created by the first `debounce` call, carried here
on the entry so theorems can speak about them. -/
structure Debouncer (τ : Type) where
  name : String
  task : τ
  fireAt : Nat
  deriving DecidableEq, Repr

/-- Debounce Registry state: the `_debouncers` array plus a log of the
callback invocations performed by fired timers (task, absolute time). -/
structure DebounceState (τ : Type) where
  debouncers : List (Debouncer τ)
  invoked : List (τ × Nat)
  deriving DecidableEq, Repr

/-- `_debounceIndex(name)`: `findIndex` over `_debouncers` by name. -/
def debounceIndex {τ : Type} (l : List (Debouncer τ)) (name : String) : Option Nat :=
  findIdxOpt (fun d => d.name == name) l

/-- `debounce(name, callback, time)` at current clock `now`: if a
debouncer with this name exists, return without effect; otherwise push a
new entry whose timer will fire at `now + time`. -/
def debounce {τ : Type} (s : DebounceState τ) (name : String) (task : τ)
    (time now : Nat) : DebounceState τ :=
  match debounceIndex s.debouncers name with
  | some _ => s
  | none => { s with debouncers := s.debouncers ++ [⟨name, task, now + time⟩] }

/-- The `setTimeout` closure firing: re-finds the entry by name, splices
it out, and invokes the captured callback. When no entry is present the
timer was cancelled and nothing happens. -/
def fireDebouncer {τ : Type} (s : DebounceState τ) (name : String) : DebounceState τ :=
  match debounceIndex s.debouncers name with
  | none => s
  | some i =>
    match s.debouncers.get? i with
    | none => s
    | some d => ⟨s.debouncers.eraseIdx i, s.invoked ++ [(d.task, d.fireAt)]⟩

/-- `cancelDebounce(name)`: no-op when the name is absent; otherwise
`clearTimeout` and splice the entry out (no invocation). -/
def cancelDebounce {τ : Type} (s : DebounceState τ) (name : String) : DebounceState τ :=
  match debounceIndex s.debouncers name with
  | none => s
  | some i => { s with debouncers := s.debouncers.eraseIdx i }

theorem get?_append_singleton {α : Type} (l : List α) (d : α) :
    (l ++ [d]).get? l.length = some d := by
  induction l with
  | nil => rfl
  | cons a l ih => exact ih

theorem eraseIdx_append_singleton {α : Type} (l : List α) (d : α) :
    (l ++ [d]).eraseIdx l.length = l := by
  induction l with
  | nil => rfl
  | cons a l ih => simpa [List.eraseIdx] using ih

/-- C7 — Scheduling a debounced task a second time under a name that is
already live is a no-op: the registry state is unchanged, exactly one
live debouncer exists for that name, its fire time is the one computed
from the first `debounce` call (`c₁ + t₁`, not reset by the second
call), and when its timer fires the first call's task is invoked exactly
once — the entry is removed, so no further invocation for it can
occur. -/
theorem debounce_second_schedule_noop {τ : Type} (s : DebounceState τ)
    (name : String) (task₁ task₂ : τ) (t₁ t₂ c₁ c₂ : Nat)
    (h : debounceIndex s.debouncers name = none) :
    debounce (debounce s name task₁ t₁ c₁) name task₂ t₂ c₂ =
        debounce s name task₁ t₁ c₁ ∧
    (debounce s name task₁ t₁ c₁).debouncers.filter (fun d => d.name == name) =
        [⟨name, task₁, c₁ + t₁⟩] ∧
    fireDebouncer (debounce s name task₁ t₁ c₁) name =
        ⟨s.debouncers, s.invoked ++ [(task₁, c₁ + t₁)]⟩ := by
  have hall : ∀ d ∈ s.debouncers, (d.name == name) = false :=
    (findIdxOpt_eq_none_iff _ _).mp h
  have hs1 : debounce s name task₁ t₁ c₁ =
      { s with debouncers := s.debouncers ++ [⟨name, task₁, c₁ + t₁⟩] } := by
    simp [debounce, h]
  have hfind : debounceIndex (s.debouncers ++ [⟨name, task₁, c₁ + t₁⟩]) name =
      some s.debouncers.length := by
    rw [debounceIndex, findIdxOpt_append_of_none _ _ _ hall]
    simp [findIdxOpt]
  refine ⟨?_, ?_, ?_⟩
  · rw [hs1]
    simp [debounce, hfind]
  · rw [hs1]
    simp only [List.filter_append]
    rw [List.filter_eq_nil_iff.mpr (by intro d hd; simp [hall d hd])]
    simp
  · rw [hs1]
    simp only [fireDebouncer, hfind, get?_append_singleton, eraseIdx_append_singleton]

theorem debounce_second_schedule_noop_witness :
    debounce (debounce (⟨[], []⟩ : DebounceState Nat) "ajax-call" 7 2000 10)
        "ajax-call" 8 50 30 =
      debounce (⟨[], []⟩ : DebounceState Nat) "ajax-call" 7 2000 10 ∧
    (debounce (⟨[], []⟩ : DebounceState Nat) "ajax-call" 7 2000 10).debouncers.filter
        (fun d => d.name == "ajax-call") = [⟨"ajax-call", 7, 2010⟩] ∧
    fireDebouncer (debounce (⟨[], []⟩ : DebounceState Nat) "ajax-call" 7 2000 10)
        "ajax-call" = ⟨[], [(7, 2010)]⟩ :=
  debounce_second_schedule_noop ⟨[], []⟩ "ajax-call" 7 8 2000 50 10 30 rfl

/-! ## The Command Router (`commandHandler` / `execRequestAction` in `app.js`) -/

/-- A JavaScript value handed to a routed handler: `args[i]` when present,
`undefined` when `args` is too short, or the object literal
`{source: 'shortcut'}` that the `save` request action passes. -/
inductive JsVal (ρ : Type) where
  | undef
  | val (v : ρ)
  | objSourceShortcut
  deriving DecidableEq, Repr

/-- JS index access `args[i]` (yields `undefined` past the end). -/
def argAt {ρ : Type} (args : List ρ) (i : Nat) : JsVal ρ :=
  match args.get? i with
  | some v => JsVal.val v
  | none => JsVal.undef

/-- One handler invocation the router performed: the bound method and the
values passed to it (the IPC event argument `e`, forwarded first to the
remote-call style handlers, is not listed). -/
structure HandlerCall (ρ : Type) where
  handler : String
  passed : List (JsVal ρ)
  deriving DecidableEq, Repr

/-- The `Error('Unrecognized action ' + action)` thrown by
`execRequestAction`, and error objects generally: only the message. -/
structure ArcError where
  message : String
  deriving DecidableEq, Repr

/-- What one dispatch did: the handler invocations, the `console.warn`
messages, and the error thrown out of the dispatcher, if any. -/
structure DispatchResult (ρ : Type) where
  calls : List (HandlerCall ρ)
  warns : List String
  thrown : Option ArcError
  deriving DecidableEq, Repr

/-- The enumerated application-command vocabulary: the `case` labels of
`commandHandler`, in source order. -/
def appCommands : List String :=
  ["show-settings", "about", "open-license", "import-data", "export-data",
   "open-saved", "open-history", "open-drive", "open-messages",
   "login-external-webservice", "open-cookie-manager", "open-hosts-editor",
   "get-tabs-count", "activate-tab", "get-request-data", "open-themes",
   "open-requests-workspace", "open-web-socket", "popup-menu",
   "process-external-file", "open-onboarding", "open-workspace-details",
   "export-workspace"]

/-- `commandHandler(e, action, ...args)`: the `switch (action)` of
`app.js`. Each known command invokes its bound handler (most take no
arguments; the remote-call style commands pass `args[0]` or
`args[0], args[1]`; `process-external-file` passes `args[0]`); the
`default` branch logs `'Unknown command'` and returns normally. -/
def commandHandler {ρ : Type} (action : String) (args : List ρ) : DispatchResult ρ :=
  if action = "show-settings" then ⟨[⟨"app.openSettings", []⟩], [], none⟩
  else if action = "about" then ⟨[⟨"app.openAbout", []⟩], [], none⟩
  else if action = "open-license" then ⟨[⟨"app.openLicense", []⟩], [], none⟩
  else if action = "import-data" then ⟨[⟨"app.openImport", []⟩], [], none⟩
  else if action = "export-data" then ⟨[⟨"app.openExport", []⟩], [], none⟩
  else if action = "open-saved" then ⟨[⟨"app.openSaved", []⟩], [], none⟩
  else if action = "open-history" then ⟨[⟨"app.openHistory", []⟩], [], none⟩
  else if action = "open-drive" then ⟨[⟨"app.openDrivePicker", []⟩], [], none⟩
  else if action = "open-messages" then ⟨[⟨"app.openInfoCenter", []⟩], [], none⟩
  else if action = "login-external-webservice" then ⟨[⟨"app.openWebUrl", []⟩], [], none⟩
  else if action = "open-cookie-manager" then ⟨[⟨"app.openCookieManager", []⟩], [], none⟩
  else if action = "open-hosts-editor" then ⟨[⟨"app.openHostRules", []⟩], [], none⟩
  else if action = "get-tabs-count" then ⟨[⟨"this.sendTabsCount", [argAt args 0]⟩], [], none⟩
  else if action = "activate-tab" then
    ⟨[⟨"this.activateTab", [argAt args 0, argAt args 1]⟩], [], none⟩
  else if action = "get-request-data" then
    ⟨[⟨"this.getRequestData", [argAt args 0, argAt args 1]⟩], [], none⟩
  else if action = "open-themes" then ⟨[⟨"app.openThemesPanel", []⟩], [], none⟩
  else if action = "open-requests-workspace" then ⟨[⟨"app.openWorkspace", []⟩], [], none⟩
  else if action = "open-web-socket" then ⟨[⟨"app.openWebSocket", []⟩], [], none⟩
  else if action = "popup-menu" then ⟨[⟨"this.toggleMenuWindow", []⟩], [], none⟩
  else if action = "process-external-file" then
    ⟨[⟨"this.processExternalFile", [argAt args 0]⟩], [], none⟩
  else if action = "open-onboarding" then ⟨[⟨"app.openOnboarding", []⟩], [], none⟩
  else if action = "open-workspace-details" then ⟨[⟨"app.openWorkspaceDetails", []⟩], [], none⟩
  else if action = "export-workspace" then ⟨[⟨"this.exportWorkspace", []⟩], [], none⟩
  else ⟨[], ["Unknown command"], none⟩

/-- C5 — Dispatching any command name outside the enumerated
application-command vocabulary through `commandHandler` logs the
`'Unknown command'` warning and returns normally: no handler is invoked
and no error is raised. -/
theorem unknown_command_warns_and_returns {ρ : Type} (action : String)
    (args : List ρ) (h : action ∉ appCommands) :
    commandHandler action args = ⟨[], ["Unknown command"], none⟩ := by
  simp only [appCommands, List.mem_cons, List.mem_singleton, not_or,
    List.not_mem_nil] at h
  obtain ⟨h1, h2, h3, h4, h5, h6, h7, h8, h9, h10, h11, h12, h13, h14, h15,
    h16, h17, h18, h19, h20, h21, h22, h23, -⟩ := h
  simp [commandHandler, h1, h2, h3, h4, h5, h6, h7, h8, h9, h10, h11, h12,
    h13, h14, h15, h16, h17, h18, h19, h20, h21, h22, h23]

theorem unknown_command_witness :
    commandHandler "open-fridge" ([3] : List Nat) = ⟨[], ["Unknown command"], none⟩ :=
  unknown_command_warns_and_returns "open-fridge" [3] (by decide)

/-- The enumerated request-action vocabulary: the `case` labels of
`execRequestAction`, in source order. -/
def requestActions : List String :=
  ["save", "save-as", "new-tab", "send-current", "update-request", "close-tab"]

/-- `execRequestAction(e, action, ...args)`: the request-scoped `switch
(action)` of `app.js`. `save` passes the literal `{source: 'shortcut'}`;
`update-request` passes `args[0], args[1]`; the `default` branch throws
`Error('Unrecognized action ' + action)`. -/
def execRequestAction {ρ : Type} (action : String) (args : List ρ) : DispatchResult ρ :=
  if action = "save" then ⟨[⟨"app.saveOpened", [JsVal.objSourceShortcut]⟩], [], none⟩
  else if action = "save-as" then ⟨[⟨"app.saveOpened", []⟩], [], none⟩
  else if action = "new-tab" then ⟨[⟨"app.newRequestTab", []⟩], [], none⟩
  else if action = "send-current" then ⟨[⟨"app.sendCurrentTab", []⟩], [], none⟩
  else if action = "update-request" then
    ⟨[⟨"app.updateRequestTab", [argAt args 0, argAt args 1]⟩], [], none⟩
  else if action = "close-tab" then ⟨[⟨"app.closeActiveTab", []⟩], [], none⟩
  else ⟨[], [], some ⟨"Unrecognized action " ++ action⟩⟩

/-- C6 — Dispatching any action name outside the enumerated
request-action vocabulary through `execRequestAction` invokes no handler
and raises the `UnrecognizedActionError` whose payload (the message of
the thrown `Error`) carries that exact action name. -/
theorem unrecognized_action_raises {ρ : Type} (action : String) (args : List ρ)
    (h : action ∉ requestActions) :
    execRequestAction action args =
      ⟨[], [], some ⟨"Unrecognized action " ++ action⟩⟩ := by
  simp only [requestActions, List.mem_cons, List.mem_singleton, not_or,
    List.not_mem_nil] at h
  obtain ⟨h1, h2, h3, h4, h5, h6, -⟩ := h
  simp [execRequestAction, h1, h2, h3, h4, h5, h6]

theorem unrecognized_action_witness :
    execRequestAction "archive" ([9] : List Nat) =
      ⟨[], [], some ⟨"Unrecognized action archive"⟩⟩ :=
  unrecognized_action_raises "archive" [9] (by decide)

/-- Modelled from the amended reading of the spec sentence for C8: which
handler each vocabulary command is bound to. All 23 handlers are
distinct. -/
def handlerNameOf (action : String) : String :=
  if action = "show-settings" then "app.openSettings"
  else if action = "about" then "app.openAbout"
  else if action = "open-license" then "app.openLicense"
  else if action = "import-data" then "app.openImport"
  else if action = "export-data" then "app.openExport"
  else if action = "open-saved" then "app.openSaved"
  else if action = "open-history" then "app.openHistory"
  else if action = "open-drive" then "app.openDrivePicker"
  else if action = "open-messages" then "app.openInfoCenter"
  else if action = "login-external-webservice" then "app.openWebUrl"
  else if action = "open-cookie-manager" then "app.openCookieManager"
  else if action = "open-hosts-editor" then "app.openHostRules"
  else if action = "get-tabs-count" then "this.sendTabsCount"
  else if action = "activate-tab" then "this.activateTab"
  else if action = "get-request-data" then "this.getRequestData"
  else if action = "open-themes" then "app.openThemesPanel"
  else if action = "open-requests-workspace" then "app.openWorkspace"
  else if action = "open-web-socket" then "app.openWebSocket"
  else if action = "popup-menu" then "this.toggleMenuWindow"
  else if action = "process-external-file" then "this.processExternalFile"
  else if action = "open-onboarding" then "app.openOnboarding"
  else if action = "open-workspace-details" then "app.openWorkspaceDetails"
  else "this.exportWorkspace"

/-- Modelled from the amended reading of the spec sentence for C8: the
fixed-arity leading slice of the trailing arguments each command's
handler receives — two for `activate-tab` and `get-request-data`, one for
`get-tabs-count` and `process-external-file`, none for every other
command. -/
def amendedForward {ρ : Type} (action : String) (args : List ρ) : List (JsVal ρ) :=
  if action = "get-tabs-count" then [argAt args 0]
  else if action = "activate-tab" then [argAt args 0, argAt args 1]
  else if action = "get-request-data" then [argAt args 0, argAt args 1]
  else if action = "process-external-file" then [argAt args 0]
  else []

/-- C8 (amended) — Every command in the enumerated application-command
vocabulary routes to exactly one invocation of that command's handler;
the handlers of distinct commands are pairwise distinct; the invoked
handler receives, unmodified and in order, the command's fixed-arity
leading slice of the trailing arguments (`args[0]`/`args[0], args[1]` for
the remote-call style and external-file commands, nothing for the rest) —
not the whole trailing argument list; no warning is logged and no error
is raised. -/
theorem known_command_routes_to_distinct_handler {ρ : Type} (action : String)
    (args : List ρ) (h : action ∈ appCommands) :
    commandHandler action args =
      ⟨[⟨handlerNameOf action, amendedForward action args⟩], [], none⟩ ∧
    (appCommands.map handlerNameOf).Nodup := by
  refine ⟨?_, by decide⟩
  simp only [appCommands, List.mem_cons, List.mem_singleton,
    List.not_mem_nil, or_false] at h
  rcases h with rfl | rfl | rfl | rfl | rfl | rfl | rfl | rfl | rfl | rfl |
    rfl | rfl | rfl | rfl | rfl | rfl | rfl | rfl | rfl | rfl | rfl | rfl | rfl <;>
    simp [commandHandler, handlerNameOf, amendedForward]

theorem known_command_witness :
    commandHandler "activate-tab" ([4, 5] : List Nat) =
      ⟨[⟨"this.activateTab", [JsVal.val 4, JsVal.val 5]⟩], [], none⟩ ∧
    (appCommands.map handlerNameOf).Nodup := by
  have h := known_command_routes_to_distinct_handler "activate-tab"
    ([4, 5] : List Nat) (by decide)
  exact ⟨by rw [h.1]; decide, h.2⟩

/-- C8 counterexample — the claim as stated fails on the code: for the
vocabulary command `show-settings` with trailing argument list `[0]`, the
dispatcher invokes `app.openSettings` with no arguments at all, so the
trailing arguments are not forwarded to the handler. -/
theorem known_command_forwards_all_args_counterexample :
    (commandHandler "show-settings" ([0] : List Nat)).calls =
      [⟨"app.openSettings", []⟩] ∧
    ¬ ((commandHandler "show-settings" ([0] : List Nat)).calls.map
        HandlerCall.passed = [[JsVal.val 0]]) := by
  decide

/-! ## The Lifecycle Sequencer (`_stateInfoHandler` and friends in `app.js`) -/

/-- JS `String.prototype.split('/')`: cut at every `'/'`, keeping empty
segments. -/
def splitSlashAux : List Char → List Char → List (List Char)
  | [], acc => [acc]
  | c :: cs, acc =>
    if c = '/' then acc :: splitSlashAux cs [] else splitSlashAux cs (acc ++ [c])

def splitSlash (s : String) : List String :=
  (splitSlashAux s.data []).map fun cs => String.mk cs

/-- The spec's Lifecycle Sequencer states. `ConfigReceived` is entered
when `window-state-info` arrives, `Built` when `initApp` finished (UI
surface and theme resolution), `PathResolved` when the upgrade check is
done and the start path is being inspected, `Ready` when
`processInitialPath` returned and the loader is removed. -/
inductive Stage where
  | AwaitingConfig
  | ConfigReceived
  | Built
  | PathResolved
  | Ready
  deriving DecidableEq, Repr

/-- Observable side effects of the startup sequence. -/
inductive Effect where
  | logError (message : String)
  | sendFatal (message : String)
  | warn (message : String)
  | notifyError (message : String)
  | pushNav (hash : String)
  | loadingInfo (text : String)
  | dispatchImportData
  deriving DecidableEq, Repr

/-- The external collaborators the startup sequence awaits, one outcome
per collaborator for the single run under consideration:
`prefProxy.load()`, `_createApp`, `themeManager.loadTheme`, the
`upgradeApp` externals, the window's `startPath`, `driveBridge.getFile`
(`Except.ok none` models JS-falsy data) and `JSON.parse` on the fetched
drive data. -/
structure InitEnv where
  prefLoad : Except ArcError Unit
  createApp : Except ArcError Unit
  themeLoad : Except ArcError Unit
  upgrade : Except ArcError Unit
  startPath : Option String
  driveGetFile : Except ArcError (Option String)
  parseJson : Except ArcError Unit
  deriving Repr

/-- What one `await`ed step did: its effects and the exception it threw,
if any. -/
structure StepResult where
  effects : List Effect
  error : Option ArcError
  deriving DecidableEq, Repr

/-- `reportFatalError(err)`: `console.error(err)` then
`ipc.send('fatal-error', err.message)`. -/
def reportFatalError (err : ArcError) : List Effect :=
  [Effect.logError err.message, Effect.sendFatal err.message]

/-- `initApp()`: `try { cnf = await prefProxy.load(); await
_createApp(cnf) } catch (e) { reportFatalError(e); throw e }`, then the
theme load in its own `try` whose `catch` only logs
(`console.error(e)`). -/
def initApp (env : InitEnv) : StepResult :=
  match env.prefLoad with
  | Except.error e => ⟨reportFatalError e, some e⟩
  | Except.ok _ =>
    match env.createApp with
    | Except.error e => ⟨reportFatalError e, some e⟩
    | Except.ok _ =>
      match env.themeLoad with
      | Except.error e => ⟨[Effect.logError e.message], none⟩
      | Except.ok _ => ⟨[], none⟩

/-- `upgradeApp()`: awaits its externals; any rejection propagates. -/
def upgradeApp (env : InitEnv) : StepResult :=
  match env.upgrade with
  | Except.error e => ⟨[], some e⟩
  | Except.ok _ => ⟨[], none⟩

/-- `handleGoogleDriveAction(action, fileId)`: a non-`'open'` action only
warns; otherwise set the loading info text, `await
driveBridge.getFile(fileId)` (a rejection propagates), throw on falsy
data, throw on unparsable JSON, and dispatch `import-process-data` on
success. -/
def handleGoogleDriveAction (env : InitEnv) (action : Option String) : StepResult :=
  if action ≠ some "open" then
    ⟨[Effect.warn "Currently only open action for Google Drive is supported."], none⟩
  else
    match env.driveGetFile with
    | Except.error e => ⟨[Effect.loadingInfo "Loading file from Google Drive"], some e⟩
    | Except.ok none =>
      ⟨[Effect.loadingInfo "Loading file from Google Drive",
        Effect.notifyError "Google drive did not return any data."],
       some ⟨"Google drive did not return any data."⟩⟩
    | Except.ok (some _) =>
      match env.parseJson with
      | Except.error cause =>
        ⟨[Effect.loadingInfo "Loading file from Google Drive",
          Effect.warn cause.message, Effect.notifyError cause.message],
         some ⟨"Unable to parse received data."⟩⟩
      | Except.ok _ =>
        ⟨[Effect.loadingInfo "Loading file from Google Drive",
          Effect.dispatchImportData], none⟩

/-- `handleDefaultProtocolActon(args)`: destructures
`[source, action, id]` and switches on `source`; only `'google-drive'`
is recognized, anything else logs a warning and returns. -/
def handleDefaultProtocolActon (env : InitEnv) (args : List String) : StepResult :=
  if args.get? 0 = some "google-drive" then handleGoogleDriveAction env (args.get? 1)
  else ⟨[Effect.warn "Unknown protocol action."], none⟩

/-- `processInitialPath()`: a falsy `startPath` resolves immediately; a
path whose first `'/'`-segment is `'file-protocol-action'` dispatches the
protocol action with the remaining segments; any other path is pushed as
in-app navigation state `'#' + startPath`. -/
def processInitialPath (env : InitEnv) : StepResult :=
  match env.startPath with
  | none => ⟨[], none⟩
  | some sp =>
    if sp = "" then ⟨[], none⟩
    else
      let parts := splitSlash sp
      if parts.head? = some "file-protocol-action" then
        handleDefaultProtocolActon env (parts.drop 1)
      else
        ⟨[Effect.pushNav ("#" ++ sp)], none⟩

/-- The outcome of one startup run: effects, the Lifecycle Sequencer
states reached, and the rejection the `window-state-info` handler ends
with, if any. -/
structure LifeResult where
  effects : List Effect
  stages : List Stage
  error : Option ArcError
  deriving DecidableEq, Repr

/-- `_stateInfoHandler(e, info)`: `await initApp(); await upgradeApp();
await processInitialPath(); await removeLoader()`, with no `catch`
anywhere — the first rejection aborts the remaining awaits. -/
def stateInfoHandler (env : InitEnv) : LifeResult :=
  let r₁ := initApp env
  match r₁.error with
  | some e => ⟨r₁.effects, [Stage.ConfigReceived], some e⟩
  | none =>
    let r₂ := upgradeApp env
    match r₂.error with
    | some e => ⟨r₁.effects ++ r₂.effects, [Stage.ConfigReceived, Stage.Built], some e⟩
    | none =>
      let r₃ := processInitialPath env
      match r₃.error with
      | some e =>
        ⟨r₁.effects ++ r₂.effects ++ r₃.effects,
         [Stage.ConfigReceived, Stage.Built, Stage.PathResolved], some e⟩
      | none =>
        ⟨r₁.effects ++ r₂.effects ++ r₃.effects,
         [Stage.ConfigReceived, Stage.Built, Stage.PathResolved, Stage.Ready], none⟩

/-- C3 — Every failure of the initial preference load during
ConfigReceived is fatal: a `fatal-error` boundary message carrying the
failure's message is sent, the failure is re-raised out of the
`window-state-info` handler, and the sequence aborts — the Built,
PathResolved and Ready stages are never reached. -/
theorem preference_load_failure_is_fatal (env : InitEnv) (e : ArcError)
    (h : env.prefLoad = Except.error e) :
    Effect.sendFatal e.message ∈ (stateInfoHandler env).effects ∧
    (stateInfoHandler env).error = some e ∧
    Stage.Built ∉ (stateInfoHandler env).stages ∧
    Stage.PathResolved ∉ (stateInfoHandler env).stages ∧
    Stage.Ready ∉ (stateInfoHandler env).stages := by
  simp [stateInfoHandler, initApp, h, reportFatalError]

theorem preference_load_failure_witness :
    Effect.sendFatal "boom" ∈ (stateInfoHandler
      ⟨Except.error ⟨"boom"⟩, Except.ok (), Except.ok (), Except.ok (),
       none, Except.ok none, Except.ok ()⟩).effects ∧
    (stateInfoHandler
      ⟨Except.error ⟨"boom"⟩, Except.ok (), Except.ok (), Except.ok (),
       none, Except.ok none, Except.ok ()⟩).error = some ⟨"boom"⟩ ∧
    Stage.Built ∉ (stateInfoHandler
      ⟨Except.error ⟨"boom"⟩, Except.ok (), Except.ok (), Except.ok (),
       none, Except.ok none, Except.ok ()⟩).stages ∧
    Stage.PathResolved ∉ (stateInfoHandler
      ⟨Except.error ⟨"boom"⟩, Except.ok (), Except.ok (), Except.ok (),
       none, Except.ok none, Except.ok ()⟩).stages ∧
    Stage.Ready ∉ (stateInfoHandler
      ⟨Except.error ⟨"boom"⟩, Except.ok (), Except.ok (), Except.ok (),
       none, Except.ok none, Except.ok ()⟩).stages :=
  preference_load_failure_is_fatal
    ⟨Except.error ⟨"boom"⟩, Except.ok (), Except.ok (), Except.ok (),
     none, Except.ok none, Except.ok ()⟩ ⟨"boom"⟩ rfl

/-- C4 counterexample — the claim as stated fails on the code: with the
deep-link start path `file-protocol-action/google-drive/open/abc123` and
a Google Drive bridge that resolves with no data, the file-open handler
throws, nothing catches it, and the startup sequence does not continue
to the Ready state. -/
theorem protocol_action_error_not_swallowed_counterexample :
    Stage.Ready ∉ (stateInfoHandler
      ⟨Except.ok (), Except.ok (), Except.ok (), Except.ok (),
       some "file-protocol-action/google-drive/open/abc123",
       Except.ok none, Except.ok ()⟩).stages ∧
    (stateInfoHandler
      ⟨Except.ok (), Except.ok (), Except.ok (), Except.ok (),
       some "file-protocol-action/google-drive/open/abc123",
       Except.ok none, Except.ok ()⟩).error =
      some ⟨"Google drive did not return any data."⟩ := by
  decide

/-- C4 (amended) — An error raised inside the Google Drive file-open
handler propagates out of the protocol-action handler uncaught and
aborts the startup sequence: the run ends in that error and the Ready
stage is never reached (PathResolved is the last stage). Only an
unrecognized protocol-action source, or a Drive action other than
`open`, is non-fatal: it logs a warning and the handler returns
normally. -/
theorem protocol_action_failure_policy :
    (∀ (env : InitEnv) (e : ArcError), (initApp env).error = none →
      (upgradeApp env).error = none → (processInitialPath env).error = some e →
      (stateInfoHandler env).error = some e ∧
      Stage.PathResolved ∈ (stateInfoHandler env).stages ∧
      Stage.Ready ∉ (stateInfoHandler env).stages) ∧
    (∀ (env : InitEnv) (args : List String),
      (∀ s, args.get? 0 = some s → s ≠ "google-drive") →
      handleDefaultProtocolActon env args =
        ⟨[Effect.warn "Unknown protocol action."], none⟩) ∧
    (∀ (env : InitEnv) (action : Option String), action ≠ some "open" →
      handleGoogleDriveAction env action =
        ⟨[Effect.warn "Currently only open action for Google Drive is supported."],
         none⟩) := by
  refine ⟨?_, ?_, ?_⟩
  · intro env e h₁ h₂ h₃
    simp [stateInfoHandler, h₁, h₂, h₃]
  · intro env args h
    have : args.get? 0 ≠ some "google-drive" := by
      cases hs : args.get? 0 with
      | none => simp
      | some s => simpa using h s hs
    simp only [handleDefaultProtocolActon, if_neg this]
  · intro env action h
    simp [handleGoogleDriveAction, h]

theorem protocol_action_failure_policy_witness :
    ((stateInfoHandler
        ⟨Except.ok (), Except.ok (), Except.ok (), Except.ok (),
         some "file-protocol-action/google-drive/open/abc123",
         Except.error ⟨"network down"⟩, Except.ok ()⟩).error =
      some ⟨"network down"⟩ ∧
     Stage.PathResolved ∈ (stateInfoHandler
        ⟨Except.ok (), Except.ok (), Except.ok (), Except.ok (),
         some "file-protocol-action/google-drive/open/abc123",
         Except.error ⟨"network down"⟩, Except.ok ()⟩).stages ∧
     Stage.Ready ∉ (stateInfoHandler
        ⟨Except.ok (), Except.ok (), Except.ok (), Except.ok (),
         some "file-protocol-action/google-drive/open/abc123",
         Except.error ⟨"network down"⟩, Except.ok ()⟩).stages) ∧
    handleDefaultProtocolActon
        ⟨Except.ok (), Except.ok (), Except.ok (), Except.ok (), none,
         Except.ok none, Except.ok ()⟩ ["dropbox", "open", "abc"] =
      ⟨[Effect.warn "Unknown protocol action."], none⟩ ∧
    handleGoogleDriveAction
        ⟨Except.ok (), Except.ok (), Except.ok (), Except.ok (), none,
         Except.ok none, Except.ok ()⟩ (some "share") =
      ⟨[Effect.warn "Currently only open action for Google Drive is supported."],
       none⟩ := by
  refine ⟨protocol_action_failure_policy.1 _ ⟨"network down"⟩ rfl rfl (by decide),
    protocol_action_failure_policy.2.1 _ ["dropbox", "open", "abc"] ?_,
    protocol_action_failure_policy.2.2 _ (some "share") (by decide)⟩
  intro s hs
  have hs' : s = "dropbox" := by simpa using hs.symm
  subst hs'
  decide
